import Mathlib

/-!
# JavascriptExternal: the adapter between one managed host object and the script engine

A shallow embedding of `Source/Noesis.Javascript/JavascriptExternal.cpp`.

The file under study is glue code: every interesting step is a call into a collaborator
(managed reflection, the value codec `JavascriptInterop`, the engine's `ThrowException`).
The collaborators are black boxes here, passed in as records of functions; the control flow of
the five operations (`GetMethod`, the two `GetProperty` overloads, the two `SetProperty`
overloads) is transcribed branch for branch.

Conventions.
* A member name (`wstring iName`) is a `String`; names are text without embedded terminators,
  so `gcnew System::String(iName.c_str())` is the name itself.
* A `Handle<T>` is an `Option T`; the empty handle `Handle<T>()` is `none`.
* A managed exception that leaves a function is `Except.error`; a value handed to
  `v8::ThrowException` is appended to `World.thrown`.
* Reflection lookups (`Type::GetMember`, `Type::GetProperty`) are total.
-/

namespace Noesis.Javascript

/-! ## Values of the two type systems -/

/-- Managed exceptions. The two catch clauses of the source distinguish
`System::Reflection::TargetInvocationException` (which carries an `InnerException`) from every
other `System::Exception`. -/
inductive Fault where
  | TargetInvocationException (InnerException : Fault)
  | Exception (description : String)
  deriving DecidableEq, Repr

/-- Name of a managed type (`System::Type`), as far as this file compares types. -/
abbrev TypeId := String

/-- Managed values (`System::Object^`). -/
inductive Native where
  | nullptr
  | boolean (b : Bool)
  | int32 (n : Int)
  | string (s : String)
  | exception (e : Fault)
  | object (type : TypeId) (id : Nat)
  deriving DecidableEq, Repr

/-- Engine values (`v8::Value`). -/
inductive Value where
  | undefined
  | null
  | boolean (b : Bool)
  | number (n : Int)
  | string (s : String)
  | external (o : Native)
  deriving DecidableEq, Repr

/-- A `v8::Handle<T>`; `none` is the empty handle. -/
abbrev Handle (α : Type) := Option α

/-- `System::Reflection::MemberTypes`. -/
inductive MemberTypes where
  | Constructor
  | Event
  | Field
  | Method
  | Property
  | TypeInfo
  | Custom
  | NestedType
  deriving DecidableEq, Repr

/-! ## Collaborators -/

/-- The codec `JavascriptInterop` / `SystemInterop`, the managed type tests used by the named
setter, `Exception::ToString`, what `v8::ThrowException` hands back, and the numeric value of
the flag `SetParameterOptions::RejectUnknownProperties` (declared in a header outside this
file). -/
structure Interop where
  ConvertToV8 : Native → Value
  ConvertFromV8 : Value → Except Fault Native
  ConvertToType : Native → TypeId → Except Fault Native
  GetType : Native → TypeId
  IsAssignableFrom : TypeId → TypeId → Bool
  ToString : Fault → String
  ThrowExceptionResult : Handle Value
  RejectUnknownProperties : Nat

/-- A `System::Reflection::PropertyInfo` of a host whose mutable state has type `σ`.
`GetValue` and `SetValue` run host code: they may change the host and may raise. -/
structure PropertyInfo (σ : Type) where
  CanRead : Bool
  CanWrite : Bool
  PropertyType : TypeId
  IndexParameters : Nat
  GetValue : σ → Except Fault Native × σ
  SetValue : σ → Native → Except Fault Unit × σ

/-- What reflection reports about `self->GetType()`, together with the reflective invocations
the source performs on `self`. `ArrayGetValue` / `ArraySetValue` are `System::Array::GetValue`
and `SetValue` after the cast `(System::Array^)self`; `InvokeGetItem` / `InvokeSetItem` are
`type->InvokeMember("Item", GetProperty | SetProperty, nullptr, self, args, nullptr)`. -/
structure HostType (σ : Type) where
  IsArray : Bool
  IsClass : Bool
  GetMember : String → List MemberTypes
  GetProperty : String → Option (PropertyInfo σ)
  ArrayGetValue : σ → Int → Except Fault Native
  ArraySetValue : σ → Native → Int → Except Fault σ
  InvokeGetItem : σ → Int → Except Fault Native × σ
  InvokeSetItem : σ → Int → Native → Except Fault Native × σ

/-- Calls made on the collaborators, recorded in order. -/
inductive Call where
  | GetMember (name : String)
  | GetProperty (name : String)
  | GetProperties
  | GetValue (name : String)
  | SetValue (name : String) (value : Native)
  | ArrayGetValue (index : Int)
  | ArraySetValue (value : Native) (index : Int)
  | InvokeGetItem (index : Int)
  | InvokeSetItem (index : Int) (value : Native)
  | FunctionNew (function : Nat) (name : String)
  | Dispose (function : Nat)
  deriving DecidableEq, Repr

/-! ## The adapter and the engine around it -/

/-- The adapter's fields (`mObjectHandle.Target`, `mMethods`, `mOptions`) together with the
engine-side state the operations touch: the values passed to `v8::ThrowException`, the
function objects created so far (a function is identified by its position in `functions`, which
stores the member name it was bound to), and the log of collaborator calls. -/
structure World (σ : Type) where
  mObjectHandle : σ
  mMethods : List (String × Nat)
  mOptions : Nat
  thrown : List Value
  functions : List String
  calls : List Call
  deriving DecidableEq, Repr

namespace MethodMap

/-- The part of `std::map::find` used by the source: the value stored under `name`, if any. -/
def find : List (String × Nat) → String → Option Nat
  | [], _ => none
  | (k, f) :: rest, name => if k = name then some f else find rest name

/-- The assignment `mMethods[name] = f`: overwrite the entry of `name`, or add one. -/
def assign : List (String × Nat) → String → Nat → List (String × Nat)
  | [], name, f => [(name, f)]
  | (k, g) :: rest, name, f =>
    if k = name then (k, f) :: rest else (k, g) :: assign rest name f

/-- Number of entries stored under `name`. -/
def entries (m : List (String × Nat)) (name : String) : Nat :=
  (m.filter (fun e => decide (e.1 = name))).length

/-- A `std::map` holds each key at most once. -/
def UniqueKeys (m : List (String × Nat)) : Prop :=
  (m.map Prod.fst).Nodup

end MethodMap

/-- The conversion `int index = iIndex;` of a `uint32_t` to a 32-bit signed `int`. -/
def toInt (iIndex : Nat) : Int :=
  if iIndex % 2 ^ 32 < 2 ^ 31 then ((iIndex % 2 ^ 32 : Nat) : Int)
  else ((iIndex % 2 ^ 32 : Nat) : Int) - 2 ^ 32

/-- Append a collaborator call to the log. -/
def World.log {σ : Type} (w : World σ) (c : Call) : World σ :=
  { w with calls := w.calls ++ [c] }

/-- The engine primitive `v8::ThrowException(exception)`: schedules `exception` and hands back
a handle. -/
def ThrowException {σ : Type} (I : Interop) (w : World σ) (exception : Value) :
    Handle Value × World σ :=
  (I.ThrowExceptionResult, { w with thrown := w.thrown ++ [exception] })

/-- The pair of catch clauses
`catch(TargetInvocationException^ exception)  ConvertToV8(exception->InnerException)` and
`catch(System::Exception^ exception)  ConvertToV8(exception)`: the value that is thrown. -/
def caught (I : Interop) : Fault → Value
  | Fault.TargetInvocationException inner => I.ConvertToV8 (Native.exception inner)
  | Fault.Exception d => I.ConvertToV8 (Native.exception (Fault.Exception d))

/-- The constructor `JavascriptExternal::JavascriptExternal(iObject)` in a given engine state:
the handle is allocated, the options are `SetParameterOptions::None`, the map is empty. -/
def construct {σ : Type} (iObject : σ) (thrown : List Value) (functions : List String)
    (calls : List Call) : World σ :=
  { mObjectHandle := iObject, mMethods := [], mOptions := 0,
    thrown := thrown, functions := functions, calls := calls }

/-- The member `JavascriptExternal::Clear`: dispose every stored function, empty the map. -/
def Clear {σ : Type} (w : World σ) : World σ :=
  { w with
    mMethods := [],
    calls := w.calls ++ w.mMethods.map (fun e => Call.Dispose e.2) }

/-- The member `JavascriptExternal::GetMethod(wstring iName)`. -/
def GetMethod {σ : Type} (T : HostType σ) (w : World σ) (iName : String) :
    Handle Nat × World σ :=
  match MethodMap.find w.mMethods iName with
  | some f => (some f, w)
  | none =>
    let members := T.GetMember iName
    let w1 := w.log (Call.GetMember iName)
    if decide (0 < members.length) && decide (members.head? = some MemberTypes.Method) then
      let function := w1.functions.length
      (some function,
        { w1 with
          functions := w1.functions ++ [iName],
          calls := w1.calls ++ [Call.FunctionNew function iName],
          mMethods := MethodMap.assign w1.mMethods iName function })
    else
      (none, w1)

/-- The member `JavascriptExternal::GetProperty(wstring iName, Handle<Value> &result)`.
The second component of the answer is what `result` holds on return. -/
def GetProperty {σ : Type} (I : Interop) (T : HostType σ) (w : World σ) (iName : String)
    (result : Handle Value) : Bool × Handle Value × World σ :=
  let w0 := w.log (Call.GetProperty iName)
  match T.GetProperty iName with
  | none => (false, result, w0)
  | some propertyInfo =>
    if !propertyInfo.CanRead then
      let t := ThrowException I w0
        (I.ConvertToV8 (Native.string ("Property " ++ iName ++ " may not be read.")))
      (true, result, t.2)
    else
      match propertyInfo.GetValue w0.mObjectHandle with
      | (Except.ok value, self) =>
        (true, some (I.ConvertToV8 value),
          { w0 with mObjectHandle := self, calls := w0.calls ++ [Call.GetValue iName] })
      | (Except.error exception, self) =>
        let t := ThrowException I
          { w0 with mObjectHandle := self, calls := w0.calls ++ [Call.GetValue iName] }
          (caught I exception)
        (true, t.1, t.2)

/-- The member `JavascriptExternal::GetProperty(uint32_t iIndex)`. -/
def GetPropertyIndexed {σ : Type} (I : Interop) (T : HostType σ) (w : World σ)
    (iIndex : Nat) : Except Fault (Handle Value) × World σ :=
  let w0 := w.log Call.GetProperties
  let index := toInt iIndex
  if T.IsArray then
    let w1 := w0.log (Call.ArrayGetValue index)
    match T.ArrayGetValue w0.mObjectHandle index with
    | Except.ok value => (Except.ok (some (I.ConvertToV8 value)), w1)
    | Except.error exception => (Except.error exception, w1)
  else if T.IsClass then
    let w1 := w0.log (Call.GetProperty "Item")
    match T.GetProperty "Item" with
    | none => (Except.ok none, w1)
    | some item_info =>
      if item_info.IndexParameters != 1 then (Except.ok none, w1)
      else
        match T.InvokeGetItem w1.mObjectHandle index with
        | (Except.ok object, self) =>
          (Except.ok (some (I.ConvertToV8 object)),
            { w1 with mObjectHandle := self, calls := w1.calls ++ [Call.InvokeGetItem index] })
        | (Except.error exception, self) =>
          let t := ThrowException I
            { w1 with mObjectHandle := self, calls := w1.calls ++ [Call.InvokeGetItem index] }
            (I.ConvertToV8 (Native.string (I.ToString exception)))
          (Except.ok none, t.2)
  else
    (Except.ok none, w0)

/-- The conversion step of the named setter: `ConvertFromV8`, then, for a non-null value whose
type is neither the property type nor assignable to it, `SystemInterop::ConvertToType`. -/
def convertForProperty {σ : Type} (I : Interop) (propertyInfo : PropertyInfo σ)
    (iValue : Value) : Except Fault Native :=
  match I.ConvertFromV8 iValue with
  | Except.error exception => Except.error exception
  | Except.ok value =>
    if value != Native.nullptr then
      let valueType := I.GetType value
      let propertyType := propertyInfo.PropertyType
      if propertyType != valueType && !I.IsAssignableFrom propertyType valueType then
        I.ConvertToType value propertyType
      else Except.ok value
    else Except.ok value

/-- The member `JavascriptExternal::SetProperty(wstring iName, Handle<Value> iValue)`. -/
def SetProperty {σ : Type} (I : Interop) (T : HostType σ) (w : World σ) (iName : String)
    (iValue : Value) : Handle Value × World σ :=
  let w0 := w.log (Call.GetProperty iName)
  match T.GetProperty iName with
  | none =>
    if (w0.mOptions &&& I.RejectUnknownProperties) == I.RejectUnknownProperties then
      let t := ThrowException I w0 (I.ConvertToV8 (Native.string ("Unknown member: " ++ iName)))
      (none, t.2)
    else
      (none, w0)
  | some propertyInfo =>
    match convertForProperty I propertyInfo iValue with
    | Except.error exception =>
      let t := ThrowException I w0 (caught I exception)
      (none, t.2)
    | Except.ok value =>
      if !propertyInfo.CanWrite then
        let t := ThrowException I w0
          (I.ConvertToV8 (Native.string ("Property " ++ iName ++ " may not be set.")))
        (none, t.2)
      else
        match propertyInfo.SetValue w0.mObjectHandle value with
        | (Except.ok _, self) =>
          (some iValue,
            { w0 with mObjectHandle := self, calls := w0.calls ++ [Call.SetValue iName value] })
        | (Except.error exception, self) =>
          let t := ThrowException I
            { w0 with mObjectHandle := self, calls := w0.calls ++ [Call.SetValue iName value] }
            (caught I exception)
          (none, t.2)

/-- The member `JavascriptExternal::SetProperty(uint32_t iIndex, Handle<Value> iValue)`. -/
def SetPropertyIndexed {σ : Type} (I : Interop) (T : HostType σ) (w : World σ)
    (iIndex : Nat) (iValue : Value) : Except Fault (Handle Value) × World σ :=
  let w0 := w.log Call.GetProperties
  let index := toInt iIndex
  if T.IsArray then
    match I.ConvertFromV8 iValue with
    | Except.error exception => (Except.error exception, w0)
    | Except.ok value =>
      let w1 := w0.log (Call.ArraySetValue value index)
      match T.ArraySetValue w0.mObjectHandle value index with
      | Except.error exception => (Except.error exception, w1)
      | Except.ok self =>
        let w2 := { w1 with mObjectHandle := self, calls := w1.calls ++ [Call.ArrayGetValue index] }
        match T.ArrayGetValue self index with
        | Except.ok stored => (Except.ok (some (I.ConvertToV8 stored)), w2)
        | Except.error exception => (Except.error exception, w2)
  else
    match I.ConvertFromV8 iValue with
    | Except.error exception =>
      let t := ThrowException I w0 (caught I exception)
      (Except.ok none, t.2)
    | Except.ok value =>
      match T.InvokeSetItem w0.mObjectHandle index value with
      | (Except.ok result, self) =>
        (Except.ok (some (I.ConvertToV8 result)),
          { w0 with mObjectHandle := self, calls := w0.calls ++ [Call.InvokeSetItem index value] })
      | (Except.error exception, self) =>
        let t := ThrowException I
          { w0 with mObjectHandle := self, calls := w0.calls ++ [Call.InvokeSetItem index value] }
          (caught I exception)
        (Except.ok none, t.2)

/-! ## One-dimensional managed arrays

`System::Array::GetValue(int)` and `System::Array::SetValue(Object^, int)` on a one-dimensional
array, whose elements are a list. An index outside the bounds raises
`System.IndexOutOfRangeException`; a value the element type does not admit raises
`System.InvalidCastException`; an admitted value is stored as it is. -/

namespace SystemArray

/-- The fault raised for an index outside the bounds of the array. -/
def IndexOutOfRangeException : Fault := Fault.Exception "System.IndexOutOfRangeException"

/-- The fault raised for a value that cannot be cast to the element type. -/
def InvalidCastException : Fault := Fault.Exception "System.InvalidCastException"

/-- The method `System::Array::GetValue(int index)`. -/
def GetValue (elements : List Native) (index : Int) : Except Fault Native :=
  if index < 0 then Except.error IndexOutOfRangeException
  else
    match elements[index.toNat]? with
    | some element => Except.ok element
    | none => Except.error IndexOutOfRangeException

/-- The method `System::Array::SetValue(Object^ value, int index)`. -/
def SetValue (elementOk : Native → Bool) (elements : List Native) (value : Native)
    (index : Int) : Except Fault (List Native) :=
  if index < 0 then Except.error IndexOutOfRangeException
  else if elements.length ≤ index.toNat then Except.error IndexOutOfRangeException
  else if !elementOk value then Except.error InvalidCastException
  else Except.ok (elements.set index.toNat value)

end SystemArray

/-- The fault `Type::InvokeMember` raises when the type has no matching member. -/
def MissingMethodException : Fault := Fault.Exception "System.MissingMethodException"

/-- The runtime type of a one-dimensional array whose element type admits the values accepted
by `elementOk`. `members` and `properties` are what reflection reports for the array type. -/
def arrayType (elementOk : Native → Bool) (members : String → List MemberTypes)
    (properties : String → Option (PropertyInfo (List Native))) : HostType (List Native) :=
  { IsArray := true,
    IsClass := true,
    GetMember := members,
    GetProperty := properties,
    ArrayGetValue := SystemArray.GetValue,
    ArraySetValue := SystemArray.SetValue elementOk,
    InvokeGetItem := fun self _ => (Except.error MissingMethodException, self),
    InvokeSetItem := fun self _ _ => (Except.error MissingMethodException, self) }

/-! ## Concrete collaborators and hosts, used to run the operations -/

namespace Sample

/-- A rendering of `Exception::ToString`: the wrapper's text names its inner exception. -/
def ToString : Fault → String
  | Fault.TargetInvocationException inner =>
    "System.Reflection.TargetInvocationException ---> " ++ ToString inner
  | Fault.Exception description => description

/-- A codec: scalars map to scalars, everything else is wrapped; a boolean converts to
`System.Int32`, any other requested conversion is an invalid cast. -/
def interop : Interop :=
  { ConvertToV8 := fun o =>
      match o with
      | Native.nullptr => Value.null
      | Native.boolean b => Value.boolean b
      | Native.int32 n => Value.number n
      | Native.string s => Value.string s
      | other => Value.external other,
    ConvertFromV8 := fun v =>
      match v with
      | Value.undefined => Except.ok Native.nullptr
      | Value.null => Except.ok Native.nullptr
      | Value.boolean b => Except.ok (Native.boolean b)
      | Value.number n => Except.ok (Native.int32 n)
      | Value.string s => Except.ok (Native.string s)
      | Value.external o => Except.ok o,
    ConvertToType := fun o t =>
      match o with
      | Native.boolean b =>
        if t = "System.Int32" then Except.ok (Native.int32 (if b then 1 else 0))
        else Except.error SystemArray.InvalidCastException
      | _ => Except.error SystemArray.InvalidCastException,
    GetType := fun o =>
      match o with
      | Native.nullptr => "System.Object"
      | Native.boolean _ => "System.Boolean"
      | Native.int32 _ => "System.Int32"
      | Native.string _ => "System.String"
      | Native.exception _ => "System.Exception"
      | Native.object t _ => t,
    IsAssignableFrom := fun p v => p == "System.Object" || p == v,
    ToString := ToString,
    ThrowExceptionResult := some Value.undefined,
    RejectUnknownProperties := 1 }

/-- An auto-property of type `System.Int32` backed by the whole state of the host. -/
def valueProperty : PropertyInfo Native :=
  { CanRead := true, CanWrite := true, PropertyType := "System.Int32", IndexParameters := 0,
    GetValue := fun self => (Except.ok self, self),
    SetValue := fun _ value => (Except.ok (), value) }

/-- A property with a getter and no setter. -/
def idProperty : PropertyInfo Native :=
  { CanRead := true, CanWrite := false, PropertyType := "System.Int32", IndexParameters := 0,
    GetValue := fun self => (Except.ok (Native.int32 7), self),
    SetValue := fun self _ => (Except.error (Fault.Exception "System.ArgumentException"), self) }

/-- A property with a setter and no getter. -/
def secretProperty : PropertyInfo Native :=
  { CanRead := false, CanWrite := true, PropertyType := "System.Int32", IndexParameters := 0,
    GetValue := fun self => (Except.error (Fault.Exception "System.ArgumentException"), self),
    SetValue := fun _ value => (Except.ok (), value) }

/-- A class with the properties `Value`, `Id`, `Secret`, the method `Reset`, and no indexer. -/
def widgetType : HostType Native :=
  { IsArray := false,
    IsClass := true,
    GetMember := fun name =>
      if name = "Reset" then [MemberTypes.Method]
      else if name = "Value" ∨ name = "Id" ∨ name = "Secret" then [MemberTypes.Property]
      else [],
    GetProperty := fun name =>
      if name = "Value" then some valueProperty
      else if name = "Id" then some idProperty
      else if name = "Secret" then some secretProperty
      else none,
    ArrayGetValue := fun _ _ => Except.error SystemArray.InvalidCastException,
    ArraySetValue := fun _ _ _ => Except.error SystemArray.InvalidCastException,
    InvokeGetItem := fun self _ => (Except.error MissingMethodException, self),
    InvokeSetItem := fun self _ _ => (Except.error MissingMethodException, self) }

/-- The fault an indexer accessor raises for an index it does not hold, as reflection reports
it: wrapped in a `TargetInvocationException`. -/
def indexerFault : Fault :=
  Fault.TargetInvocationException (Fault.Exception "System.ArgumentOutOfRangeException")

/-- The `Item` property of a host with a one-parameter indexer. -/
def itemProperty : PropertyInfo (List Native) :=
  { CanRead := true, CanWrite := true, PropertyType := "System.Object", IndexParameters := 1,
    GetValue := fun self =>
      (Except.error (Fault.Exception "System.Reflection.TargetParameterCountException"), self),
    SetValue := fun self _ =>
      (Except.error (Fault.Exception "System.Reflection.TargetParameterCountException"), self) }

/-- A class exposing the indexer `this[int]` over a list of items and nothing else. -/
def bagType : HostType (List Native) :=
  { IsArray := false,
    IsClass := true,
    GetMember := fun name => if name = "Item" then [MemberTypes.Property] else [],
    GetProperty := fun name => if name = "Item" then some itemProperty else none,
    ArrayGetValue := fun _ _ => Except.error SystemArray.InvalidCastException,
    ArraySetValue := fun _ _ _ => Except.error SystemArray.InvalidCastException,
    InvokeGetItem := fun self index =>
      if index < 0 then (Except.error indexerFault, self)
      else
        match self[index.toNat]? with
        | some item => (Except.ok item, self)
        | none => (Except.error indexerFault, self),
    InvokeSetItem := fun self index value =>
      if index < 0 then (Except.error indexerFault, self)
      else if self.length ≤ index.toNat then (Except.error indexerFault, self)
      else (Except.ok Native.nullptr, self.set index.toNat value) }

/-- The same indexer on a value type: `IsClass` is false. -/
def structBagType : HostType (List Native) :=
  { bagType with IsClass := false }

/-- A freshly constructed adapter around a widget whose `Value` is 5. -/
def widget : World Native := construct (Native.int32 5) [] [] []

/-- A freshly constructed adapter around a bag of two items. -/
def bag : World (List Native) := construct [Native.int32 10, Native.int32 20] [] [] []

/-- A freshly constructed adapter around an array of two items. -/
def pair : World (List Native) := construct [Native.int32 10, Native.int32 20] [] [] []

/-- The runtime type of an array that admits every value and reports no named members. -/
def objectArrayType : HostType (List Native) :=
  arrayType (fun _ => true) (fun _ => []) (fun _ => none)

end Sample

/-! ## The method map -/

theorem MethodMap.find_assign_self (m : List (String × Nat)) (name : String) (f : Nat) :
    MethodMap.find (MethodMap.assign m name f) name = some f := by
  induction m with
  | nil => simp [MethodMap.assign, MethodMap.find]
  | cons e rest ih =>
    obtain ⟨k, g⟩ := e
    by_cases h : k = name
    · simp [MethodMap.assign, MethodMap.find, h]
    · simp [MethodMap.assign, MethodMap.find, h, ih]

theorem MethodMap.find_assign_other (m : List (String × Nat)) (name k : String) (f : Nat)
    (hk : k ≠ name) :
    MethodMap.find (MethodMap.assign m name f) k = MethodMap.find m k := by
  induction m with
  | nil =>
    have : ¬ name = k := fun h => hk h.symm
    simp [MethodMap.assign, MethodMap.find, this]
  | cons e rest ih =>
    obtain ⟨j, g⟩ := e
    by_cases h : j = name
    · subst h
      have hj : ¬ j = k := fun h2 => hk h2.symm
      simp [MethodMap.assign, MethodMap.find, hj]
    · by_cases h2 : j = k
      · subst h2
        simp [MethodMap.assign, MethodMap.find, h]
      · simp [MethodMap.assign, MethodMap.find, h, h2, ih]

theorem MethodMap.entries_of_find_none (m : List (String × Nat)) (name : String)
    (h : MethodMap.find m name = none) : MethodMap.entries m name = 0 := by
  induction m with
  | nil => simp [MethodMap.entries]
  | cons e rest ih =>
    obtain ⟨k, g⟩ := e
    by_cases hk : k = name
    · simp [MethodMap.find, hk] at h
    · simp only [MethodMap.find, hk, if_false] at h
      have := ih h
      simp only [MethodMap.entries] at this ⊢
      simp [List.filter_cons, hk, this]

theorem MethodMap.entries_of_find_some (m : List (String × Nat)) (name : String) (f : Nat)
    (hu : MethodMap.UniqueKeys m) (h : MethodMap.find m name = some f) :
    MethodMap.entries m name = 1 := by
  induction m with
  | nil => simp [MethodMap.find] at h
  | cons e rest ih =>
    obtain ⟨k, g⟩ := e
    simp only [MethodMap.UniqueKeys, List.map_cons, List.nodup_cons] at hu
    by_cases hk : k = name
    · subst hk
      have hnone : MethodMap.find rest k = none := by
        cases hf : MethodMap.find rest k with
        | none => rfl
        | some x =>
          exfalso
          apply hu.1
          clear ih h hu
          induction rest with
          | nil => simp [MethodMap.find] at hf
          | cons e2 rest2 ih2 =>
            obtain ⟨k2, g2⟩ := e2
            by_cases hk2 : k2 = k
            · simp [hk2]
            · simp only [MethodMap.find, hk2, if_false] at hf
              simp only [List.map_cons, List.mem_cons]
              exact Or.inr (ih2 hf)
      have h0 := MethodMap.entries_of_find_none rest k hnone
      simp only [MethodMap.entries] at h0 ⊢
      simp [List.filter_cons, h0]
    · simp only [MethodMap.find, hk, if_false] at h
      have := ih hu.2 h
      simp only [MethodMap.entries] at this ⊢
      simp [List.filter_cons, hk, this]

theorem MethodMap.entries_assign_of_find_none (m : List (String × Nat)) (name : String)
    (f : Nat) (h : MethodMap.find m name = none) :
    MethodMap.entries (MethodMap.assign m name f) name = 1 := by
  induction m with
  | nil => simp [MethodMap.assign, MethodMap.entries]
  | cons e rest ih =>
    obtain ⟨k, g⟩ := e
    by_cases hk : k = name
    · simp [MethodMap.find, hk] at h
    · simp only [MethodMap.find, hk, if_false] at h
      have := ih h
      simp only [MethodMap.entries] at this ⊢
      simp [MethodMap.assign, List.filter_cons, hk, this]

/-! ## Method resolution -/

theorem GetMethod_hit {σ : Type} (T : HostType σ) (w : World σ) (iName : String) (f : Nat)
    (h : MethodMap.find w.mMethods iName = some f) :
    GetMethod T w iName = (some f, w) := by
  simp [GetMethod, h]

theorem GetMethod_miss_method {σ : Type} (T : HostType σ) (w : World σ) (iName : String)
    (h : MethodMap.find w.mMethods iName = none)
    (hm : (T.GetMember iName).head? = some MemberTypes.Method) :
    GetMethod T w iName =
      (some w.functions.length,
        { w with
          functions := w.functions ++ [iName],
          calls := w.calls ++ [Call.GetMember iName] ++
            [Call.FunctionNew w.functions.length iName],
          mMethods := MethodMap.assign w.mMethods iName w.functions.length }) := by
  have hlen : 0 < (T.GetMember iName).length := by
    cases hl : T.GetMember iName with
    | nil => simp [hl] at hm
    | cons a l => simp
  simp [GetMethod, h, hm, hlen, World.log]

theorem GetMethod_miss_other {σ : Type} (T : HostType σ) (w : World σ) (iName : String)
    (h : MethodMap.find w.mMethods iName = none)
    (hm : (T.GetMember iName).head? ≠ some MemberTypes.Method) :
    GetMethod T w iName = (none, w.log (Call.GetMember iName)) := by
  simp [GetMethod, h, hm]

/-- C1. For a name whose first reflected member is a method, two calls of `GetMethod` in a row
return the same function. The second call returns the stored function and changes nothing (no
reflection call, no new function); afterwards the map holds exactly one entry for the name. When
the name was not stored before, the first call creates exactly one function, after one
`GetMember` lookup, and stores it under the name; when it was stored, the first call already
returns the stored function and changes nothing. -/
theorem C1_GetMethod_twice_same_callable {σ : Type} (T : HostType σ) (w : World σ)
    (iName : String) (rest : List MemberTypes)
    (hmember : T.GetMember iName = MemberTypes.Method :: rest)
    (hmap : MethodMap.UniqueKeys w.mMethods) :
    ∃ f : Nat,
      (GetMethod T w iName).1 = some f ∧
      GetMethod T (GetMethod T w iName).2 iName = (some f, (GetMethod T w iName).2) ∧
      MethodMap.find (GetMethod T w iName).2.mMethods iName = some f ∧
      MethodMap.entries (GetMethod T w iName).2.mMethods iName = 1 ∧
      (match MethodMap.find w.mMethods iName with
        | none =>
          f = w.functions.length ∧
          (GetMethod T w iName).2.functions = w.functions ++ [iName] ∧
          (GetMethod T w iName).2.calls =
            w.calls ++ [Call.GetMember iName, Call.FunctionNew f iName] ∧
          (GetMethod T w iName).2.mMethods = MethodMap.assign w.mMethods iName f
        | some g => f = g ∧ (GetMethod T w iName).2 = w) := by
  have hm : (T.GetMember iName).head? = some MemberTypes.Method := by simp [hmember]
  cases hfind : MethodMap.find w.mMethods iName with
  | some g =>
    refine ⟨g, ?_⟩
    rw [GetMethod_hit T w iName g hfind]
    refine ⟨rfl, GetMethod_hit T w iName g hfind, hfind, ?_, rfl, rfl⟩
    exact MethodMap.entries_of_find_some _ _ g hmap hfind
  | none =>
    refine ⟨w.functions.length, ?_⟩
    rw [GetMethod_miss_method T w iName hfind hm]
    refine ⟨rfl, ?_, ?_, ?_, rfl, rfl, ?_, rfl⟩
    · exact GetMethod_hit T _ iName _ (MethodMap.find_assign_self _ _ _)
    · exact MethodMap.find_assign_self _ _ _
    · exact MethodMap.entries_assign_of_find_none _ _ _ hfind
    · simp

/-- C1 at a concrete input: a fresh adapter around a widget, the method `Reset`. -/
theorem C1_GetMethod_twice_same_callable_witness :
    ∃ f : Nat,
      (GetMethod Sample.widgetType Sample.widget "Reset").1 = some f ∧
      GetMethod Sample.widgetType (GetMethod Sample.widgetType Sample.widget "Reset").2 "Reset"
        = (some f, (GetMethod Sample.widgetType Sample.widget "Reset").2) ∧
      MethodMap.find (GetMethod Sample.widgetType Sample.widget "Reset").2.mMethods "Reset"
        = some f ∧
      MethodMap.entries (GetMethod Sample.widgetType Sample.widget "Reset").2.mMethods "Reset"
        = 1 ∧
      (match MethodMap.find Sample.widget.mMethods "Reset" with
        | none =>
          f = Sample.widget.functions.length ∧
          (GetMethod Sample.widgetType Sample.widget "Reset").2.functions
            = Sample.widget.functions ++ ["Reset"] ∧
          (GetMethod Sample.widgetType Sample.widget "Reset").2.calls =
            Sample.widget.calls ++ [Call.GetMember "Reset", Call.FunctionNew f "Reset"] ∧
          (GetMethod Sample.widgetType Sample.widget "Reset").2.mMethods
            = MethodMap.assign Sample.widget.mMethods "Reset" f
        | some g => f = g ∧ (GetMethod Sample.widgetType Sample.widget "Reset").2 = Sample.widget) :=
  C1_GetMethod_twice_same_callable Sample.widgetType Sample.widget "Reset" []
    (by simp [Sample.widgetType])
    (by simp [MethodMap.UniqueKeys, Sample.widget, construct])

/-! ## The method map under the access operations -/

theorem MethodMap.length_assign_of_find_none (m : List (String × Nat)) (name : String)
    (f : Nat) (h : MethodMap.find m name = none) :
    (MethodMap.assign m name f).length = m.length + 1 := by
  induction m with
  | nil => simp [MethodMap.assign]
  | cons e rest ih =>
    obtain ⟨k, g⟩ := e
    by_cases hk : k = name
    · simp [MethodMap.find, hk] at h
    · simp only [MethodMap.find, hk, if_false] at h
      simp [MethodMap.assign, hk, ih h]

theorem GetProperty_mMethods {σ : Type} (I : Interop) (T : HostType σ) (w : World σ)
    (iName : String) (result : Handle Value) :
    (GetProperty I T w iName result).2.2.mMethods = w.mMethods := by
  unfold GetProperty
  dsimp only
  repeat' (first | rfl | split)

theorem GetPropertyIndexed_mMethods {σ : Type} (I : Interop) (T : HostType σ) (w : World σ)
    (iIndex : Nat) :
    (GetPropertyIndexed I T w iIndex).2.mMethods = w.mMethods := by
  unfold GetPropertyIndexed
  dsimp only
  repeat' (first | rfl | split)

theorem SetProperty_mMethods {σ : Type} (I : Interop) (T : HostType σ) (w : World σ)
    (iName : String) (iValue : Value) :
    (SetProperty I T w iName iValue).2.mMethods = w.mMethods := by
  unfold SetProperty
  dsimp only
  repeat' (first | rfl | split)

theorem SetPropertyIndexed_mMethods {σ : Type} (I : Interop) (T : HostType σ) (w : World σ)
    (iIndex : Nat) (iValue : Value) :
    (SetPropertyIndexed I T w iIndex iValue).2.mMethods = w.mMethods := by
  unfold SetPropertyIndexed
  dsimp only
  repeat' (first | rfl | split)

theorem GetMethod_mMethods {σ : Type} (T : HostType σ) (w : World σ) (iName : String) :
    (GetMethod T w iName).2.mMethods =
      if MethodMap.find w.mMethods iName = none ∧
          (T.GetMember iName).head? = some MemberTypes.Method
      then MethodMap.assign w.mMethods iName w.functions.length
      else w.mMethods := by
  cases hfind : MethodMap.find w.mMethods iName with
  | some g => simp [GetMethod_hit T w iName g hfind]
  | none =>
    by_cases hm : (T.GetMember iName).head? = some MemberTypes.Method
    · simp [GetMethod_miss_method T w iName hfind hm, hm]
    · simp [GetMethod_miss_other T w iName hfind hm, hm, World.log]

/-- C10. The method map only grows and is write-once per key. The two `GetProperty` and the
two `SetProperty` operations leave it as it is. `GetMethod(name)` keeps every stored entry with
the same function, changes no key other than `name`, and adds an entry (exactly one, under
`name`, for the function it has just created) exactly when `name` is not stored and the first
reflected member of that name is a method; otherwise the map is unchanged, so a negative answer
is not stored. -/
theorem C10_method_cache_grows_write_once {σ : Type} (I : Interop) (T : HostType σ)
    (w : World σ) (iName : String) (iIndex : Nat) (iValue : Value) (result : Handle Value) :
    (GetProperty I T w iName result).2.2.mMethods = w.mMethods ∧
    (GetPropertyIndexed I T w iIndex).2.mMethods = w.mMethods ∧
    (SetProperty I T w iName iValue).2.mMethods = w.mMethods ∧
    (SetPropertyIndexed I T w iIndex iValue).2.mMethods = w.mMethods ∧
    (∀ (k : String) (f : Nat), MethodMap.find w.mMethods k = some f →
      MethodMap.find (GetMethod T w iName).2.mMethods k = some f) ∧
    (∀ k : String, k ≠ iName →
      MethodMap.find (GetMethod T w iName).2.mMethods k = MethodMap.find w.mMethods k) ∧
    (GetMethod T w iName).2.mMethods =
      (if MethodMap.find w.mMethods iName = none ∧
          (T.GetMember iName).head? = some MemberTypes.Method
       then MethodMap.assign w.mMethods iName w.functions.length
       else w.mMethods) ∧
    (GetMethod T w iName).2.mMethods.length =
      w.mMethods.length +
        (if MethodMap.find w.mMethods iName = none ∧
            (T.GetMember iName).head? = some MemberTypes.Method
         then 1 else 0) ∧
    (GetMethod T w iName).1 =
      (if MethodMap.find w.mMethods iName = none ∧
          (T.GetMember iName).head? = some MemberTypes.Method
       then some w.functions.length
       else MethodMap.find w.mMethods iName) := by
  refine ⟨GetProperty_mMethods I T w iName result, GetPropertyIndexed_mMethods I T w iIndex,
    SetProperty_mMethods I T w iName iValue, SetPropertyIndexed_mMethods I T w iIndex iValue,
    ?_, ?_, GetMethod_mMethods T w iName, ?_, ?_⟩
  · intro k f hk
    rw [GetMethod_mMethods]
    split
    · rename_i hc
      by_cases hkn : k = iName
      · subst hkn
        rw [hc.1] at hk
        cases hk
      · rw [MethodMap.find_assign_other _ _ _ _ hkn]
        exact hk
    · exact hk
  · intro k hkn
    rw [GetMethod_mMethods]
    split
    · exact MethodMap.find_assign_other _ _ _ _ hkn
    · rfl
  · rw [GetMethod_mMethods]
    split
    · rename_i hc
      exact MethodMap.length_assign_of_find_none _ _ _ hc.1
    · rfl
  · cases hfind : MethodMap.find w.mMethods iName with
    | some g => simp [GetMethod_hit T w iName g hfind]
    | none =>
      by_cases hm : (T.GetMember iName).head? = some MemberTypes.Method
      · simp [GetMethod_miss_method T w iName hfind hm, hm]
      · simp [GetMethod_miss_other T w iName hfind hm, hm]

/-! ## Named property set -/

/-- C2. Setting a name that resolves to no property returns the empty handle and leaves the
wrapped object, the method map, the options and the engine's functions as they were; the only
collaborator call is the reflection lookup. With `RejectUnknownProperties` off nothing is
thrown; with it on exactly one value is thrown, the conversion of the text
`"Unknown member: "` followed by the name. -/
theorem C2_SetProperty_unknown_name {σ : Type} (I : Interop) (T : HostType σ) (w : World σ)
    (iName : String) (iValue : Value) (hnone : T.GetProperty iName = none) :
    (SetProperty I T w iName iValue).1 = none ∧
    (SetProperty I T w iName iValue).2.mObjectHandle = w.mObjectHandle ∧
    (SetProperty I T w iName iValue).2.thrown =
      (if (w.mOptions &&& I.RejectUnknownProperties) = I.RejectUnknownProperties
       then w.thrown ++ [I.ConvertToV8 (Native.string ("Unknown member: " ++ iName))]
       else w.thrown) ∧
    (SetProperty I T w iName iValue).2.calls = w.calls ++ [Call.GetProperty iName] ∧
    (SetProperty I T w iName iValue).2.mMethods = w.mMethods ∧
    (SetProperty I T w iName iValue).2.mOptions = w.mOptions ∧
    (SetProperty I T w iName iValue).2.functions = w.functions := by
  by_cases hopt : (w.mOptions &&& I.RejectUnknownProperties) = I.RejectUnknownProperties
  · simp [SetProperty, hnone, World.log, ThrowException, hopt]
  · simp [SetProperty, hnone, World.log, ThrowException, hopt]

/-- C2 at a concrete input: the widget has no property `Colour`; the flag is on. -/
theorem C2_SetProperty_unknown_name_witness :
    Sample.widgetType.GetProperty "Colour" = none ∧
    (SetProperty Sample.interop Sample.widgetType { Sample.widget with mOptions := 1 }
      "Colour" (Value.number 3)).1 = none ∧
    (SetProperty Sample.interop Sample.widgetType { Sample.widget with mOptions := 1 }
      "Colour" (Value.number 3)).2.mObjectHandle = Native.int32 5 ∧
    (SetProperty Sample.interop Sample.widgetType { Sample.widget with mOptions := 1 }
      "Colour" (Value.number 3)).2.thrown = [Value.string "Unknown member: Colour"] ∧
    (SetProperty Sample.interop Sample.widgetType Sample.widget
      "Colour" (Value.number 3)).2.thrown = [] :=
  ⟨by simp [Sample.widgetType],
   (C2_SetProperty_unknown_name Sample.interop Sample.widgetType
      { Sample.widget with mOptions := 1 } "Colour" (Value.number 3)
      (by simp [Sample.widgetType])).1,
   by rfl, by rfl, by rfl⟩

theorem SetProperty_not_writable {σ : Type} (I : Interop) (T : HostType σ) (w : World σ)
    (iName : String) (iValue : Value) (propertyInfo : PropertyInfo σ)
    (hfound : T.GetProperty iName = some propertyInfo)
    (hwrite : propertyInfo.CanWrite = false) :
    SetProperty I T w iName iValue =
      (none,
        { w with
          calls := w.calls ++ [Call.GetProperty iName],
          thrown := w.thrown ++
            [match convertForProperty I propertyInfo iValue with
              | Except.ok _ =>
                I.ConvertToV8 (Native.string ("Property " ++ iName ++ " may not be set."))
              | Except.error exception => caught I exception] }) := by
  cases hc : convertForProperty I propertyInfo iValue with
  | ok value => simp [SetProperty, hfound, hc, hwrite, World.log, ThrowException]
  | error exception => simp [SetProperty, hfound, hc, World.log, ThrowException]

/-- C3, as the code has it. For a name that resolves to a property that is not writable,
`SetProperty` returns the empty handle, never invokes the setter (the only collaborator call is
the reflection lookup; the wrapped object is unchanged) and throws exactly one value. That value
is the conversion of `"Property " + name + " may not be set."` when the conversion of the
engine value (`ConvertFromV8`, then `ConvertToType` where the types require it) succeeds; when
the conversion raises, the thrown value is the one the catch clauses build from that fault. -/
theorem C3_SetProperty_not_writable {σ : Type} (I : Interop) (T : HostType σ) (w : World σ)
    (iName : String) (iValue : Value) (propertyInfo : PropertyInfo σ)
    (hfound : T.GetProperty iName = some propertyInfo)
    (hwrite : propertyInfo.CanWrite = false) :
    (SetProperty I T w iName iValue).1 = none ∧
    (SetProperty I T w iName iValue).2.mObjectHandle = w.mObjectHandle ∧
    (SetProperty I T w iName iValue).2.calls = w.calls ++ [Call.GetProperty iName] ∧
    (SetProperty I T w iName iValue).2.thrown =
      w.thrown ++
        [match convertForProperty I propertyInfo iValue with
          | Except.ok _ =>
            I.ConvertToV8 (Native.string ("Property " ++ iName ++ " may not be set."))
          | Except.error exception => caught I exception] := by
  rw [SetProperty_not_writable I T w iName iValue propertyInfo hfound hwrite]
  exact ⟨rfl, rfl, rfl, rfl⟩

/-- C3 at a concrete input: the widget's `Id` has no setter; the number 9 converts. -/
theorem C3_SetProperty_not_writable_witness :
    Sample.widgetType.GetProperty "Id" = some Sample.idProperty ∧
    Sample.idProperty.CanWrite = false ∧
    (SetProperty Sample.interop Sample.widgetType Sample.widget "Id" (Value.number 9)).1
      = none ∧
    (SetProperty Sample.interop Sample.widgetType Sample.widget "Id" (Value.number 9)).2.thrown
      = [Value.string "Property Id may not be set."] :=
  ⟨by simp [Sample.widgetType], rfl,
   (C3_SetProperty_not_writable Sample.interop Sample.widgetType Sample.widget "Id"
      (Value.number 9) Sample.idProperty (by simp [Sample.widgetType]) rfl).1,
   by rfl⟩

/-- C3 as written fails: `Id` is not writable, yet setting it to a wrapped object throws the
invalid-cast fault of the coercion, not the "may not be set" message. -/
theorem C3_counterexample :
    Sample.widgetType.GetProperty "Id" = some Sample.idProperty ∧
    Sample.idProperty.CanWrite = false ∧
    (SetProperty Sample.interop Sample.widgetType Sample.widget "Id"
      (Value.external (Native.object "Gadget" 0))).2.thrown
      = [Value.external (Native.exception (Fault.Exception "System.InvalidCastException"))] ∧
    (SetProperty Sample.interop Sample.widgetType Sample.widget "Id"
      (Value.external (Native.object "Gadget" 0))).2.thrown
      ≠ Sample.widget.thrown ++
          [Sample.interop.ConvertToV8 (Native.string ("Property " ++ "Id" ++ " may not be set."))] :=
  ⟨by simp [Sample.widgetType], rfl, by rfl, by decide⟩

/-! ## Named property get -/

theorem GetProperty_not_readable {σ : Type} (I : Interop) (T : HostType σ) (w : World σ)
    (iName : String) (result : Handle Value) (propertyInfo : PropertyInfo σ)
    (hfound : T.GetProperty iName = some propertyInfo)
    (hread : propertyInfo.CanRead = false) :
    GetProperty I T w iName result =
      (true, result,
        { w with
          calls := w.calls ++ [Call.GetProperty iName],
          thrown := w.thrown ++
            [I.ConvertToV8 (Native.string ("Property " ++ iName ++ " may not be read."))] }) := by
  simp [GetProperty, hfound, hread, World.log, ThrowException]

/-- C4, evaluated. The widget's `Secret` has no getter. Reading it with `result` holding the
number 1 answers `true`, throws the conversion of `"Property Secret may not be read."`, does
not invoke the getter, and leaves `result` holding the number 1: the branch never assigns
`result`, so it is not the empty handle. -/
theorem C4_GetProperty_not_readable_keeps_result :
    Sample.widgetType.GetProperty "Secret" = some Sample.secretProperty ∧
    Sample.secretProperty.CanRead = false ∧
    GetProperty Sample.interop Sample.widgetType Sample.widget "Secret" (some (Value.number 1))
      = (true, some (Value.number 1),
          { Sample.widget with
            calls := [Call.GetProperty "Secret"],
            thrown := [Value.string "Property Secret may not be read."] }) ∧
    (GetProperty Sample.interop Sample.widgetType Sample.widget "Secret"
      (some (Value.number 1))).2.1 ≠ none :=
  ⟨by simp [Sample.widgetType], rfl, by rfl, by decide⟩

/-! ## Indexed access on arrays -/

theorem toInt_of_lt (i : Nat) (h : i < 2 ^ 31) : toInt i = (i : Int) := by
  have h32 : i % 2 ^ 32 = i := Nat.mod_eq_of_lt (by omega)
  unfold toInt
  rw [h32, if_pos h]

theorem SystemArray.GetValue_of_lt (elements : List Native) (i : Nat)
    (h : i < elements.length) :
    SystemArray.GetValue elements (i : Int) = Except.ok (elements.get ⟨i, h⟩) := by
  have hneg : ¬ ((i : Int) < 0) := by omega
  simp [SystemArray.GetValue, hneg, List.getElem?_eq_getElem h]

theorem SystemArray.SetValue_of_lt (elementOk : Native → Bool) (elements : List Native)
    (value : Native) (i : Nat) (h : i < elements.length) (hok : elementOk value = true) :
    SystemArray.SetValue elementOk elements value (i : Int) = Except.ok (elements.set i value) := by
  have hneg : ¬ ((i : Int) < 0) := by omega
  have hlen : ¬ (elements.length ≤ i) := by omega
  simp [SystemArray.SetValue, hneg, hlen, hok]

theorem SetPropertyIndexed_array {σ : Type} (I : Interop) (T : HostType σ) (w : World σ)
    (iIndex : Nat) (iValue : Value) (value stored : Native) (self : σ)
    (harray : T.IsArray = true)
    (hconv : I.ConvertFromV8 iValue = Except.ok value)
    (hset : T.ArraySetValue w.mObjectHandle value (toInt iIndex) = Except.ok self)
    (hget : T.ArrayGetValue self (toInt iIndex) = Except.ok stored) :
    SetPropertyIndexed I T w iIndex iValue =
      (Except.ok (some (I.ConvertToV8 stored)),
        { w with
          mObjectHandle := self,
          calls := w.calls ++ [Call.GetProperties] ++
            [Call.ArraySetValue value (toInt iIndex)] ++ [Call.ArrayGetValue (toInt iIndex)] }) := by
  simp [SetPropertyIndexed, harray, hconv, hset, hget, World.log]

theorem GetPropertyIndexed_array {σ : Type} (I : Interop) (T : HostType σ) (w : World σ)
    (iIndex : Nat) (harray : T.IsArray = true) :
    GetPropertyIndexed I T w iIndex =
      (match T.ArrayGetValue w.mObjectHandle (toInt iIndex) with
        | Except.ok value => Except.ok (some (I.ConvertToV8 value))
        | Except.error exception => Except.error exception,
        { w with
          calls := w.calls ++ [Call.GetProperties] ++ [Call.ArrayGetValue (toInt iIndex)] }) := by
  cases h : T.ArrayGetValue w.mObjectHandle (toInt iIndex) <;>
    simp [GetPropertyIndexed, harray, h, World.log]

/-- C5. On an array of length N (below 2^31, as every managed array is), for an index
`i < N` and an engine value whose conversion `n` the array admits, `SetProperty(i, v)` stores
`n` at position `i`, leaves every other element and the length unchanged, throws nothing and
returns the conversion of `n` back to an engine value; a following `GetProperty(i)` returns
that same value and leaves the array as it is. -/
theorem C5_array_set_then_get (I : Interop) (elementOk : Native → Bool)
    (members : String → List MemberTypes)
    (properties : String → Option (PropertyInfo (List Native)))
    (w : World (List Native)) (i : Nat) (v : Value) (n : Native)
    (hi : i < w.mObjectHandle.length) (hN : w.mObjectHandle.length < 2 ^ 31)
    (hconv : I.ConvertFromV8 v = Except.ok n) (hfits : elementOk n = true) :
    (SetPropertyIndexed I (arrayType elementOk members properties) w i v).1
      = Except.ok (some (I.ConvertToV8 n)) ∧
    (SetPropertyIndexed I (arrayType elementOk members properties) w i v).2.mObjectHandle
      = w.mObjectHandle.set i n ∧
    (SetPropertyIndexed I (arrayType elementOk members properties) w i v).2.mObjectHandle[i]?
      = some n ∧
    (∀ j : Nat, j ≠ i →
      (SetPropertyIndexed I (arrayType elementOk members properties) w i v).2.mObjectHandle[j]?
        = w.mObjectHandle[j]?) ∧
    (SetPropertyIndexed I (arrayType elementOk members properties) w i v).2.mObjectHandle.length
      = w.mObjectHandle.length ∧
    (SetPropertyIndexed I (arrayType elementOk members properties) w i v).2.thrown = w.thrown ∧
    (GetPropertyIndexed I (arrayType elementOk members properties)
      (SetPropertyIndexed I (arrayType elementOk members properties) w i v).2 i).1
      = Except.ok (some (I.ConvertToV8 n)) ∧
    (GetPropertyIndexed I (arrayType elementOk members properties)
      (SetPropertyIndexed I (arrayType elementOk members properties) w i v).2 i).2.mObjectHandle
      = w.mObjectHandle.set i n ∧
    (GetPropertyIndexed I (arrayType elementOk members properties)
      (SetPropertyIndexed I (arrayType elementOk members properties) w i v).2 i).2.thrown
      = w.thrown := by
  have hti : toInt i = (i : Int) := toInt_of_lt i (by omega)
  have hlen : i < (w.mObjectHandle.set i n).length := by simpa using hi
  have hset : (arrayType elementOk members properties).ArraySetValue w.mObjectHandle n (toInt i)
      = Except.ok (w.mObjectHandle.set i n) := by
    rw [hti]
    exact SystemArray.SetValue_of_lt elementOk _ n i hi hfits
  have hget : (arrayType elementOk members properties).ArrayGetValue (w.mObjectHandle.set i n)
      (toInt i) = Except.ok n := by
    rw [hti]
    show SystemArray.GetValue (w.mObjectHandle.set i n) (i : Int) = Except.ok n
    rw [SystemArray.GetValue_of_lt _ i hlen]
    simp
  rw [SetPropertyIndexed_array I _ w i v n n (w.mObjectHandle.set i n) rfl hconv hset hget]
  rw [GetPropertyIndexed_array I _ _ i rfl]
  refine ⟨rfl, rfl, ?_, ?_, ?_, rfl, ?_, rfl, rfl⟩
  · simp [List.getElem?_set_self, hi]
  · intro j hj
    simp [List.getElem?_set_ne (Ne.symm hj)]
  · simp
  · simp only [hget]

/-- C5 at a concrete input: an array of two items, index 1, the number 42. -/
theorem C5_array_set_then_get_witness :
    (1 : Nat) < Sample.pair.mObjectHandle.length ∧
    (SetPropertyIndexed Sample.interop Sample.objectArrayType Sample.pair 1
      (Value.number 42)).1 = Except.ok (some (Value.number 42)) ∧
    (SetPropertyIndexed Sample.interop Sample.objectArrayType Sample.pair 1
      (Value.number 42)).2.mObjectHandle = [Native.int32 10, Native.int32 42] ∧
    (GetPropertyIndexed Sample.interop Sample.objectArrayType
      (SetPropertyIndexed Sample.interop Sample.objectArrayType Sample.pair 1
        (Value.number 42)).2 1).1 = Except.ok (some (Value.number 42)) :=
  ⟨by decide,
   (C5_array_set_then_get Sample.interop (fun _ => true) (fun _ => []) (fun _ => none)
      Sample.pair 1 (Value.number 42) (Native.int32 42) (by decide) (by decide) rfl rfl).1,
   by rfl,
   (C5_array_set_then_get Sample.interop (fun _ => true) (fun _ => []) (fun _ => none)
      Sample.pair 1 (Value.number 42) (Native.int32 42) (by decide) (by decide) rfl rfl).2.2.2.2.2.2.1⟩

/-- C6, evaluated. On an array of two items the index 2, and the index 2^31 (which the
narrowing to `int` turns into -2^31), make `Array::GetValue` / `Array::SetValue` raise
`System.IndexOutOfRangeException`. Neither array branch sits inside a `try`: the managed
exception leaves `GetProperty(uint32_t)` and `SetProperty(uint32_t, value)` as it is, and
nothing is handed to `v8::ThrowException`. The array is unchanged. -/
theorem C6_array_index_out_of_range_escapes :
    GetPropertyIndexed Sample.interop Sample.objectArrayType Sample.pair 2
      = (Except.error (Fault.Exception "System.IndexOutOfRangeException"),
          { Sample.pair with calls := [Call.GetProperties, Call.ArrayGetValue 2] }) ∧
    (GetPropertyIndexed Sample.interop Sample.objectArrayType Sample.pair 2).2.thrown = [] ∧
    toInt 2147483648 = -2147483648 ∧
    GetPropertyIndexed Sample.interop Sample.objectArrayType Sample.pair 2147483648
      = (Except.error (Fault.Exception "System.IndexOutOfRangeException"),
          { Sample.pair with calls := [Call.GetProperties, Call.ArrayGetValue (-2147483648)] }) ∧
    SetPropertyIndexed Sample.interop Sample.objectArrayType Sample.pair 2 (Value.number 1)
      = (Except.error (Fault.Exception "System.IndexOutOfRangeException"),
          { Sample.pair with
            calls := [Call.GetProperties, Call.ArraySetValue (Native.int32 1) 2] }) ∧
    (SetPropertyIndexed Sample.interop Sample.objectArrayType Sample.pair 2
      (Value.number 1)).2.thrown = [] ∧
    (SetPropertyIndexed Sample.interop Sample.objectArrayType Sample.pair 2147483648
      (Value.number 1)).1 = Except.error (Fault.Exception "System.IndexOutOfRangeException") :=
  ⟨by rfl, by rfl, by rfl, by rfl, by rfl, by rfl, by rfl⟩

/-! ## Indexed access on other hosts -/

/-- C7, as the code has it. On a host that is not an array:
* when no `Item` property exists, `GetProperty(i)` returns the empty handle, throws nothing and
  leaves the host unchanged, without invoking anything on it;
* when the host's type is not a class, `GetProperty(i)` returns the empty handle and does
  nothing else, indexer or not;
* when the type is a class with an `Item` property of exactly one index parameter,
  `GetProperty(i)` invokes the getter of `Item` with the narrowed index, the host becomes what
  that invocation leaves, and a returned object is handed back converted;
* when an `Item` property of exactly one index parameter exists and the engine value converts,
  `SetProperty(i, v)` invokes the setter of `Item` with the narrowed index and the converted
  value, the host becomes what that invocation leaves, and a returned result is handed back
  converted. -/
theorem C7_indexed_access_without_array {σ : Type} (I : Interop) (T : HostType σ)
    (w : World σ) (iIndex : Nat) (iValue : Value) (harray : T.IsArray = false) :
    (T.GetProperty "Item" = none →
      (GetPropertyIndexed I T w iIndex).1 = Except.ok none ∧
      (GetPropertyIndexed I T w iIndex).2.mObjectHandle = w.mObjectHandle ∧
      (GetPropertyIndexed I T w iIndex).2.thrown = w.thrown ∧
      (GetPropertyIndexed I T w iIndex).2.calls =
        w.calls ++ [Call.GetProperties] ++
          (if T.IsClass then [Call.GetProperty "Item"] else [])) ∧
    (T.IsClass = false →
      GetPropertyIndexed I T w iIndex = (Except.ok none, w.log Call.GetProperties)) ∧
    (∀ item : PropertyInfo σ, T.IsClass = true → T.GetProperty "Item" = some item →
      item.IndexParameters = 1 →
      (GetPropertyIndexed I T w iIndex).2.mObjectHandle
        = (T.InvokeGetItem w.mObjectHandle (toInt iIndex)).2 ∧
      (GetPropertyIndexed I T w iIndex).2.calls =
        w.calls ++ [Call.GetProperties, Call.GetProperty "Item",
          Call.InvokeGetItem (toInt iIndex)] ∧
      (∀ object : Native,
        (T.InvokeGetItem w.mObjectHandle (toInt iIndex)).1 = Except.ok object →
        (GetPropertyIndexed I T w iIndex).1 = Except.ok (some (I.ConvertToV8 object)) ∧
        (GetPropertyIndexed I T w iIndex).2.thrown = w.thrown)) ∧
    (∀ (item : PropertyInfo σ) (value : Native), T.GetProperty "Item" = some item →
      item.IndexParameters = 1 → I.ConvertFromV8 iValue = Except.ok value →
      (SetPropertyIndexed I T w iIndex iValue).2.mObjectHandle
        = (T.InvokeSetItem w.mObjectHandle (toInt iIndex) value).2 ∧
      (SetPropertyIndexed I T w iIndex iValue).2.calls =
        w.calls ++ [Call.GetProperties, Call.InvokeSetItem (toInt iIndex) value] ∧
      (∀ result : Native,
        (T.InvokeSetItem w.mObjectHandle (toInt iIndex) value).1 = Except.ok result →
        (SetPropertyIndexed I T w iIndex iValue).1 = Except.ok (some (I.ConvertToV8 result)) ∧
        (SetPropertyIndexed I T w iIndex iValue).2.thrown = w.thrown)) := by
  refine ⟨?_, ?_, ?_, ?_⟩
  · intro hnone
    cases hc : T.IsClass <;>
      simp [GetPropertyIndexed, harray, hc, hnone, World.log]
  · intro hc
    simp [GetPropertyIndexed, harray, hc]
  · intro item hc hitem hparams
    rcases hinv : T.InvokeGetItem w.mObjectHandle (toInt iIndex) with ⟨outcome, self⟩
    cases outcome with
    | ok object =>
      simp [GetPropertyIndexed, harray, hc, hitem, hparams, hinv, World.log]
    | error exception =>
      simp [GetPropertyIndexed, harray, hc, hitem, hparams, hinv, World.log, ThrowException]
  · intro item value _ _ hconv
    rcases hinv : T.InvokeSetItem w.mObjectHandle (toInt iIndex) value with ⟨outcome, self⟩
    cases outcome with
    | ok result =>
      simp [SetPropertyIndexed, harray, hconv, hinv, World.log]
    | error exception =>
      simp [SetPropertyIndexed, harray, hconv, hinv, World.log, ThrowException]

/-- C7 at concrete inputs: the bag (a class with `this[int]`) and the widget (no indexer). -/
theorem C7_indexed_access_without_array_witness :
    Sample.bagType.IsArray = false ∧
    (GetPropertyIndexed Sample.interop Sample.bagType Sample.bag 1).1
      = Except.ok (some (Value.number 20)) ∧
    (GetPropertyIndexed Sample.interop Sample.bagType Sample.bag 1).2.calls
      = [Call.GetProperties, Call.GetProperty "Item", Call.InvokeGetItem 1] ∧
    (SetPropertyIndexed Sample.interop Sample.bagType Sample.bag 1 (Value.number 7)).2.mObjectHandle
      = [Native.int32 10, Native.int32 7] ∧
    (GetPropertyIndexed Sample.interop Sample.widgetType Sample.widget 1).1 = Except.ok none ∧
    (GetPropertyIndexed Sample.interop Sample.widgetType Sample.widget 1).2.thrown = [] :=
  ⟨rfl,
   (((C7_indexed_access_without_array Sample.interop Sample.bagType Sample.bag 1
      (Value.number 7) rfl).2.2.1 Sample.itemProperty rfl (by simp [Sample.bagType]) rfl).2.2
      (Native.int32 20) rfl).1,
   ((C7_indexed_access_without_array Sample.interop Sample.bagType Sample.bag 1
      (Value.number 7) rfl).2.2.1 Sample.itemProperty rfl (by simp [Sample.bagType]) rfl).2.1,
   ((C7_indexed_access_without_array Sample.interop Sample.bagType Sample.bag 1
      (Value.number 7) rfl).2.2.2 Sample.itemProperty (Native.int32 7)
      (by simp [Sample.bagType]) rfl rfl).1,
   ((C7_indexed_access_without_array Sample.interop Sample.widgetType Sample.widget 1
      (Value.number 7) rfl).1 (by simp [Sample.widgetType])).1,
   ((C7_indexed_access_without_array Sample.interop Sample.widgetType Sample.widget 1
      (Value.number 7) rfl).1 (by simp [Sample.widgetType])).2.2.1⟩

/-- C7 as written fails twice. The widget is not an array and has no `Item`, yet
`SetProperty(0, 1)` throws (the missing-member fault of `InvokeMember`). The value-type bag is
not an array and has a one-parameter `Item`, yet `GetProperty(0)` returns the empty handle
without invoking it, where the same bag as a class returns its first item. -/
theorem C7_counterexample :
    Sample.widgetType.IsArray = false ∧
    Sample.widgetType.GetProperty "Item" = none ∧
    SetPropertyIndexed Sample.interop Sample.widgetType Sample.widget 0 (Value.number 1)
      = (Except.ok none,
          { Sample.widget with
            calls := [Call.GetProperties, Call.InvokeSetItem 0 (Native.int32 1)],
            thrown :=
              [Value.external (Native.exception (Fault.Exception "System.MissingMethodException"))] }) ∧
    (SetPropertyIndexed Sample.interop Sample.widgetType Sample.widget 0
      (Value.number 1)).2.thrown ≠ Sample.widget.thrown ∧
    Sample.structBagType.IsArray = false ∧
    Sample.structBagType.GetProperty "Item" = some Sample.itemProperty ∧
    Sample.itemProperty.IndexParameters = 1 ∧
    GetPropertyIndexed Sample.interop Sample.structBagType Sample.bag 0
      = (Except.ok none, { Sample.bag with calls := [Call.GetProperties] }) ∧
    (GetPropertyIndexed Sample.interop Sample.bagType Sample.bag 0).1
      = Except.ok (some (Value.number 10)) :=
  ⟨rfl, by simp [Sample.widgetType], by rfl, by decide, rfl,
   by simp [Sample.structBagType, Sample.bagType], rfl, by rfl, by rfl⟩

/-! ## Named set followed by named get -/

theorem convertForProperty_eq {σ : Type} (I : Interop) (propertyInfo : PropertyInfo σ)
    (v : Value) (n stored : Native)
    (hconv : I.ConvertFromV8 v = Except.ok n)
    (hcoerce :
      if n = Native.nullptr ∨ propertyInfo.PropertyType = I.GetType n ∨
          I.IsAssignableFrom propertyInfo.PropertyType (I.GetType n) = true
      then stored = n
      else I.ConvertToType n propertyInfo.PropertyType = Except.ok stored) :
    convertForProperty I propertyInfo v = Except.ok stored := by
  unfold convertForProperty
  rw [hconv]
  by_cases hnull : n = Native.nullptr
  · simp [hnull] at hcoerce
    simp [hnull, hcoerce]
  · by_cases hsame : propertyInfo.PropertyType = I.GetType n
    · simp [hsame] at hcoerce
      simp [hnull, hsame, hcoerce]
    · by_cases hassign : I.IsAssignableFrom propertyInfo.PropertyType (I.GetType n) = true
      · simp [hassign] at hcoerce
        simp [hnull, hsame, hassign, hcoerce]
      · simp [hnull, hsame, hassign] at hcoerce
        simp [hnull, hsame, hassign, hcoerce]

/-- C8. Let `P` be a readable and writable property, `v` an engine value whose conversion
gives `n`, and `stored` the value handed to the setter: `n` itself when `n` is null or its type
is the declared type or assignable to it, the coercion of `n` to the declared type otherwise
(which then must succeed). If the setter stores `stored` and the getter then returns it,
`SetProperty(P, v)` throws nothing and returns `v` itself, having invoked the setter once and
the getter not at all; a following `GetProperty(P)` answers `true` with the conversion of
`stored`, whatever `result` held, and throws nothing. -/
theorem C8_named_set_then_get {σ : Type} (I : Interop) (T : HostType σ) (w : World σ)
    (iName : String) (propertyInfo : PropertyInfo σ) (v : Value) (n stored : Native)
    (self : σ) (result : Handle Value)
    (hfound : T.GetProperty iName = some propertyInfo)
    (hread : propertyInfo.CanRead = true)
    (hwrite : propertyInfo.CanWrite = true)
    (hconv : I.ConvertFromV8 v = Except.ok n)
    (hcoerce :
      if n = Native.nullptr ∨ propertyInfo.PropertyType = I.GetType n ∨
          I.IsAssignableFrom propertyInfo.PropertyType (I.GetType n) = true
      then stored = n
      else I.ConvertToType n propertyInfo.PropertyType = Except.ok stored)
    (hset : propertyInfo.SetValue w.mObjectHandle stored = (Except.ok (), self))
    (hget : (propertyInfo.GetValue self).1 = Except.ok stored) :
    (SetProperty I T w iName v).1 = some v ∧
    (SetProperty I T w iName v).2.thrown = w.thrown ∧
    (SetProperty I T w iName v).2.mObjectHandle = self ∧
    (SetProperty I T w iName v).2.calls =
      w.calls ++ [Call.GetProperty iName, Call.SetValue iName stored] ∧
    (GetProperty I T (SetProperty I T w iName v).2 iName result).1 = true ∧
    (GetProperty I T (SetProperty I T w iName v).2 iName result).2.1
      = some (I.ConvertToV8 stored) ∧
    (GetProperty I T (SetProperty I T w iName v).2 iName result).2.2.thrown = w.thrown := by
  have hc := convertForProperty_eq I propertyInfo v n stored hconv hcoerce
  have hS : SetProperty I T w iName v =
      (some v,
        { w with
          mObjectHandle := self,
          calls := w.calls ++ [Call.GetProperty iName] ++ [Call.SetValue iName stored] }) := by
    simp [SetProperty, hfound, hc, hwrite, hset, World.log]
  rw [hS]
  rcases hg : propertyInfo.GetValue self with ⟨outcome, self2⟩
  rw [hg] at hget
  simp only at hget
  subst hget
  refine ⟨rfl, rfl, rfl, by simp, ?_, ?_, ?_⟩ <;>
    simp [GetProperty, hfound, hread, hg, World.log]

/-- C8 at a concrete input: the widget's `Value` is an `Int32` auto-property; the boolean
`true` is not an `Int32`, is coerced to 1, stored, and read back as the number 1. -/
theorem C8_named_set_then_get_witness :
    Sample.widgetType.GetProperty "Value" = some Sample.valueProperty ∧
    Sample.interop.ConvertFromV8 (Value.boolean true) = Except.ok (Native.boolean true) ∧
    Sample.interop.ConvertToType (Native.boolean true) "System.Int32"
      = Except.ok (Native.int32 1) ∧
    (SetProperty Sample.interop Sample.widgetType Sample.widget "Value"
      (Value.boolean true)).1 = some (Value.boolean true) ∧
    (GetProperty Sample.interop Sample.widgetType
      (SetProperty Sample.interop Sample.widgetType Sample.widget "Value"
        (Value.boolean true)).2 "Value" none).2.1 = some (Value.number 1) :=
  ⟨by simp [Sample.widgetType], rfl, rfl,
   (C8_named_set_then_get Sample.interop Sample.widgetType Sample.widget "Value"
      Sample.valueProperty (Value.boolean true) (Native.boolean true) (Native.int32 1)
      (Native.int32 1) none (by simp [Sample.widgetType]) rfl rfl rfl
      (by rw [if_neg (by decide)]; rfl) rfl rfl).1,
   (C8_named_set_then_get Sample.interop Sample.widgetType Sample.widget "Value"
      Sample.valueProperty (Value.boolean true) (Native.boolean true) (Native.int32 1)
      (Native.int32 1) none (by simp [Sample.widgetType]) rfl rfl rfl
      (by rw [if_neg (by decide)]; rfl) rfl
      rfl).2.2.2.2.2.1⟩

/-! ## Which value the catch clauses throw -/

theorem caught_TargetInvocationException (I : Interop) (inner : Fault) :
    caught I (Fault.TargetInvocationException inner) = I.ConvertToV8 (Native.exception inner) :=
  rfl

/-- C9, evaluated. The bag's indexer raises, for the index 5, a `TargetInvocationException`
wrapping `System.ArgumentOutOfRangeException`. `GetProperty(5)` has a single catch clause for
`System::Exception` and throws the conversion of the text of the wrapper itself, which is not
the conversion of the inner exception; `SetProperty(5, 1)` on the same bag, whose catch clauses
unwrap, throws the conversion of the inner exception. -/
theorem C9_indexed_get_throws_wrapper_text :
    (Sample.bagType.InvokeGetItem Sample.bag.mObjectHandle (toInt 5)).1
      = Except.error
          (Fault.TargetInvocationException
            (Fault.Exception "System.ArgumentOutOfRangeException")) ∧
    GetPropertyIndexed Sample.interop Sample.bagType Sample.bag 5
      = (Except.ok none,
          { Sample.bag with
            calls := [Call.GetProperties, Call.GetProperty "Item", Call.InvokeGetItem 5],
            thrown :=
              [Sample.interop.ConvertToV8
                (Native.string
                  (Sample.interop.ToString
                    (Fault.TargetInvocationException
                      (Fault.Exception "System.ArgumentOutOfRangeException"))))] }) ∧
    (GetPropertyIndexed Sample.interop Sample.bagType Sample.bag 5).2.thrown
      ≠ [Sample.interop.ConvertToV8
          (Native.exception (Fault.Exception "System.ArgumentOutOfRangeException"))] ∧
    (SetPropertyIndexed Sample.interop Sample.bagType Sample.bag 5 (Value.number 1)).2.thrown
      = [Sample.interop.ConvertToV8
          (Native.exception (Fault.Exception "System.ArgumentOutOfRangeException"))] :=
  ⟨by rfl, by rfl, by decide, by rfl⟩

end Noesis.Javascript
